import Mathlib

/-!
Shallow embedding of the trade-cycle reconstruction engine of
`src/lib/tradeCycles.ts` (the core specified in `spec.md`).

Modelling conventions:
* TypeScript `number` is modelled as `ℚ` (exact arithmetic; the source
  performs only `+`, `-`, `*`, comparisons and `Math.abs`).
* `Trade` and `TokenInfo` come from `src/lib/solana-tracker.ts`; all their
  fields are kept, though the engine reads only a few of them.
* The nullable union `'buy' | 'sell' | null` is `Option Direction`.
* `EXCLUDED_TOKENS` (a JS `Set` of string literals) is a `List String` with
  exact-equality membership, matching `Set.has`.
* JS `String.prototype.toUpperCase` on the ASCII symbols involved is the
  per-character upper-casing `jsToUpperCase` below.
* The JS `Map` built by `groupTradesByToken` preserves insertion order, so it
  is modelled as an insertion-ordered association list.
* `Array.prototype.sort` is stable (and the spec pins stability); both sorts
  are modelled with the stable `List.insertionSort`, with the comparator of
  the source (`a.timestamp - b.timestamp` ascending, `b.startDate -
  a.startDate` descending).
* The mutable loop of `createTradeGroupsForToken` (locals `tradeGroups`,
  `currentGroup`, `runningBalance`, `tradeCounter`) becomes a fold over an
  explicit `BuilderState`.  In the source the current group is an alias of
  the last pushed array element, so the state keeps the already-superseded
  groups in `tradeGroups` and the live group in `currentGroup`; the array's
  final contents are `tradeGroups ++ currentGroup.toList`.
-/

namespace TradeCycles

/-- `TokenInfo` of `src/lib/solana-tracker.ts` (lines 6-13).  Optional fields
become `Option`. -/
structure TokenInfo where
  address : String
  symbol : String
  name : String
  decimals : ℚ
  logoURI : Option String
  marketCap : Option ℚ
deriving DecidableEq, Repr

/-- The `'buy' | 'sell' | 'swap'` union of the `type` field of `Trade`. -/
inductive TradeKind where
  | buy
  | sell
  | swap
deriving DecidableEq, Repr

/-- `Trade` of `src/lib/solana-tracker.ts` (lines 15-27). -/
structure Trade where
  signature : String
  timestamp : ℚ
  type : TradeKind
  tokenIn : TokenInfo
  tokenOut : TokenInfo
  amountIn : ℚ
  amountOut : ℚ
  priceUSD : ℚ
  valueUSD : ℚ
  dex : String
  maker : String
deriving DecidableEq, Repr

/-- `DUST_THRESHOLD` (tradeCycles.ts line 6). -/
def DUST_THRESHOLD : ℚ := 100

/-- `MS_TO_SECONDS` (tradeCycles.ts line 7). -/
def MS_TO_SECONDS : ℚ := 1000

/-- `EXCLUDED_TOKENS` (tradeCycles.ts lines 14-18): a JS `Set` of the exact
string literals below; `Set.has` is exact string equality. -/
def EXCLUDED_TOKENS : List String :=
  ["SOL", "WSOL", "Wrapped SOL",
   "USDC", "USDT", "USDS", "PYUSD", "DAI",
   "mSOL", "stSOL", "jitoSOL", "bSOL"]

/-- JS `String.prototype.toUpperCase`, restricted to the ASCII strings this
code applies it to: upper-case each character. -/
def jsToUpperCase (s : String) : String :=
  ⟨s.data.map Char.toUpper⟩

/-- `isExcludedToken` (tradeCycles.ts lines 25-27):
`EXCLUDED_TOKENS.has(symbol.toUpperCase())`. -/
def isExcludedToken (symbol : String) : Bool :=
  EXCLUDED_TOKENS.contains (jsToUpperCase symbol)

/-- `TradeGroup` (tradeCycles.ts lines 29-46); the optional `endDate` and
`duration` fields become `Option ℚ`, absent = `none`. -/
structure TradeGroup where
  tradeNumber : ℕ
  token : String
  tokenMint : String
  buys : List Trade
  sells : List Trade
  totalBuyAmount : ℚ
  totalSellAmount : ℚ
  totalBuyValue : ℚ
  totalSellValue : ℚ
  startBalance : ℚ
  endBalance : ℚ
  profitLoss : ℚ
  isComplete : Bool
  startDate : ℚ
  endDate : Option ℚ
  duration : Option ℚ
deriving DecidableEq, Repr

/-- `TradeCycle` (tradeCycles.ts lines 48-52). -/
structure TradeCycle where
  token : String
  tokenMint : String
  tradeGroups : List TradeGroup
deriving DecidableEq, Repr

/-- `FlattenedTrade extends TradeGroup` (tradeCycles.ts lines 54-56). -/
structure FlattenedTrade extends TradeGroup where
  globalTradeNumber : ℕ
deriving DecidableEq, Repr

/-- The non-null part of `TradeDirection = 'buy' | 'sell' | null`
(tradeCycles.ts line 64); the full union is `Option Direction`. -/
inductive Direction where
  | buy
  | sell
deriving DecidableEq, Repr

/-- `determineTradeDirection` (tradeCycles.ts lines 78-93). -/
def determineTradeDirection (trade : Trade) (tokenMint : String) :
    Option Direction :=
  let isTokenOut := trade.tokenOut.address == tokenMint
  let isTokenIn := trade.tokenIn.address == tokenMint
  if isTokenOut && isTokenIn then none
  else if isTokenOut then some Direction.buy
  else if isTokenIn then some Direction.sell
  else none

/-- `isEffectivelyZero` (tradeCycles.ts lines 106-108):
`Math.abs(balance) < DUST_THRESHOLD`. -/
def isEffectivelyZero (balance : ℚ) : Bool :=
  |balance| < DUST_THRESHOLD

/-- `addTradeToTokenMap` (tradeCycles.ts lines 119-130) on the
insertion-ordered association-list model of the JS `Map`: append the trade to
an existing bucket, else add a new bucket at the end. -/
def addTradeToTokenMap (tokenMap : List (String × List Trade))
    (tokenMint : String) (trade : Trade) : List (String × List Trade) :=
  match tokenMap with
  | [] => [(tokenMint, [trade])]
  | (k, ts) :: rest =>
    if k = tokenMint then (k, ts ++ [trade]) :: rest
    else (k, ts) :: addTradeToTokenMap rest tokenMint trade

/-- `groupTradesByToken` (tradeCycles.ts lines 139-156). -/
def groupTradesByToken (trades : List Trade) : List (String × List Trade) :=
  trades.foldl
    (fun tokenMap trade =>
      let tokenOutMint := trade.tokenOut.address
      let tokenInMint := trade.tokenIn.address
      let tokenMap := addTradeToTokenMap tokenMap tokenOutMint trade
      if tokenInMint ≠ tokenOutMint then
        addTradeToTokenMap tokenMap tokenInMint trade
      else tokenMap)
    []

/-- `extractTokenSymbol` (tradeCycles.ts lines 166-174). -/
def extractTokenSymbol (trade : Trade) (tokenMint : String) : String :=
  if trade.tokenOut.address = tokenMint then trade.tokenOut.symbol
  else if trade.tokenIn.address = tokenMint then trade.tokenIn.symbol
  else ""

/-- `shouldStartNewGroup` (tradeCycles.ts lines 187-195). -/
def shouldStartNewGroup (currentGroup : Option TradeGroup)
    (runningBalance : ℚ) (tradeDirection : Option Direction) : Bool :=
  match currentGroup with
  | none => true
  | some _ =>
    isEffectivelyZero runningBalance && tradeDirection == some Direction.buy

/-- `processTradeIntoGroup` (tradeCycles.ts lines 207-241).  The in-place
mutation of `group` becomes returning the updated group together with the new
balance. -/
def processTradeIntoGroup (group : TradeGroup) (trade : Trade)
    (tradeDirection : Option Direction) (currentBalance : ℚ) :
    TradeGroup × ℚ :=
  let updated : TradeGroup × ℚ :=
    match tradeDirection with
    | some Direction.buy =>
      ({ group with
          buys := group.buys ++ [trade],
          totalBuyAmount := group.totalBuyAmount + trade.amountOut,
          totalBuyValue := group.totalBuyValue + trade.valueUSD },
        currentBalance + trade.amountOut)
    | some Direction.sell =>
      ({ group with
          sells := group.sells ++ [trade],
          totalSellAmount := group.totalSellAmount + trade.amountIn,
          totalSellValue := group.totalSellValue + trade.valueUSD },
        currentBalance - trade.amountIn)
    | none => (group, currentBalance)
  let group := updated.1
  let newBalance := updated.2
  let group := { group with
      endBalance := newBalance,
      profitLoss := group.totalSellValue - group.totalBuyValue }
  let group :=
    if isEffectivelyZero newBalance then
      { group with
          isComplete := true,
          endDate := some trade.timestamp,
          duration := some ((trade.timestamp - group.startDate) * MS_TO_SECONDS) }
    else group
  (group, newBalance)

/-- The finalization of a not-yet-complete previous group when a new group
opens (tradeCycles.ts lines 274-281). -/
def finalizeGroup (group : TradeGroup) (runningBalance : ℚ) (trade : Trade) :
    TradeGroup :=
  let group := { group with
      endBalance := runningBalance,
      isComplete := isEffectivelyZero runningBalance }
  if group.isComplete then
    { group with
        endDate := some trade.timestamp,
        duration := some ((trade.timestamp - group.startDate) * MS_TO_SECONDS) }
  else group

/-- The fresh group literal of tradeCycles.ts lines 284-300. -/
def newGroup (tradeCounter : ℕ) (tokenMint : String) (trade : Trade)
    (dir : Direction) (runningBalance : ℚ) : TradeGroup :=
  { tradeNumber := tradeCounter,
    token := match dir with
      | Direction.buy => trade.tokenOut.symbol
      | Direction.sell => trade.tokenIn.symbol,
    tokenMint := tokenMint,
    buys := [],
    sells := [],
    totalBuyAmount := 0,
    totalSellAmount := 0,
    totalBuyValue := 0,
    totalSellValue := 0,
    startBalance := runningBalance,
    endBalance := 0,
    profitLoss := 0,
    isComplete := false,
    startDate := trade.timestamp,
    endDate := none,
    duration := none }

/-- The mutable locals of `createTradeGroupsForToken` (tradeCycles.ts lines
260-263).  `tradeGroups` holds the groups already superseded by a newer one;
the group the source's array ends with is `tradeGroups ++
currentGroup.toList`. -/
structure BuilderState where
  tradeGroups : List TradeGroup
  currentGroup : Option TradeGroup
  runningBalance : ℚ
  tradeCounter : ℕ
deriving DecidableEq, Repr

/-- One iteration of the `sortedTrades.forEach` loop of
`createTradeGroupsForToken` (tradeCycles.ts lines 265-308). -/
def stepTrade (tokenMint : String) (st : BuilderState) (trade : Trade) :
    BuilderState :=
  match determineTradeDirection trade tokenMint with
  | none => st
  | some dir =>
    let st :=
      if shouldStartNewGroup st.currentGroup st.runningBalance (some dir) then
        { tradeGroups :=
            match st.currentGroup with
            | some g =>
              st.tradeGroups ++
                [if g.isComplete then g
                 else finalizeGroup g st.runningBalance trade]
            | none => st.tradeGroups,
          currentGroup :=
            some (newGroup st.tradeCounter tokenMint trade dir
              st.runningBalance),
          runningBalance := st.runningBalance,
          tradeCounter := st.tradeCounter + 1 }
      else st
    match st.currentGroup with
    | some g =>
      let p := processTradeIntoGroup g trade (some dir) st.runningBalance
      { st with currentGroup := some p.1, runningBalance := p.2 }
    | none => st

/-- `createTradeGroupsForToken` (tradeCycles.ts lines 251-311). -/
def createTradeGroupsForToken (tokenMint : String)
    (tokenTrades : List Trade) : List TradeGroup :=
  if tokenTrades.isEmpty then []
  else
    let sortedTrades :=
      List.insertionSort (fun a b => a.timestamp ≤ b.timestamp) tokenTrades
    let final :=
      sortedTrades.foldl (stepTrade tokenMint)
        { tradeGroups := [], currentGroup := none,
          runningBalance := 0, tradeCounter := 1 }
    final.tradeGroups ++ final.currentGroup.toList

/-- `calculateTradeCycles` (tradeCycles.ts lines 327-367). -/
def calculateTradeCycles (trades : List Trade) : List TradeCycle :=
  if trades.isEmpty then []
  else
    (groupTradesByToken trades).foldl
      (fun tradeCycles entry =>
        match entry.2 with
        | [] => tradeCycles
        | firstTrade :: _ =>
          let tokenSymbol := extractTokenSymbol firstTrade entry.1
          if isExcludedToken tokenSymbol then tradeCycles
          else
            match createTradeGroupsForToken entry.1 entry.2 with
            | [] => tradeCycles
            | g0 :: rest =>
              if (g0 :: rest).any
                  (fun g => g.buys.length > 0 || g.sells.length > 0) then
                tradeCycles ++
                  [{ token := g0.token, tokenMint := entry.1,
                     tradeGroups := g0 :: rest }]
              else tradeCycles)
      []

/-- `flattenTradeCycles` (tradeCycles.ts lines 378-396): number the groups in
flat-map order starting at 1, then stable-sort descending by `startDate`. -/
def flattenTradeCycles (tradeCycles : List TradeCycle) :
    List FlattenedTrade :=
  if tradeCycles.isEmpty then []
  else
    let allTrades : List FlattenedTrade :=
      ((tradeCycles.flatMap fun c => c.tradeGroups).enum).map
        fun p => { toTradeGroup := p.2, globalTradeNumber := p.1 + 1 }
    List.insertionSort (fun a b => b.startDate ≤ a.startDate) allTrades

end TradeCycles

namespace TradeCycles

lemma isEffectivelyZero_eq_true {b : ℚ} :
    isEffectivelyZero b = true ↔ |b| < DUST_THRESHOLD := by
  simp [isEffectivelyZero]

lemma isEffectivelyZero_eq_false {b : ℚ} :
    isEffectivelyZero b = false ↔ ¬ |b| < DUST_THRESHOLD := by
  simp [isEffectivelyZero]

lemma process_buy_pos_eq (g : TradeGroup) (t : Trade) (bal : ℚ)
    (h100 : isEffectivelyZero (bal + t.amountOut) = true) :
    processTradeIntoGroup g t (some Direction.buy) bal =
      ({ g with
         buys := g.buys ++ [t],
         totalBuyAmount := g.totalBuyAmount + t.amountOut,
         totalBuyValue := g.totalBuyValue + t.valueUSD,
         endBalance := bal + t.amountOut,
         profitLoss := g.totalSellValue - (g.totalBuyValue + t.valueUSD),
         isComplete := true,
         endDate := some t.timestamp,
         duration := some ((t.timestamp - g.startDate) * MS_TO_SECONDS) },
       bal + t.amountOut) := by
  simp [processTradeIntoGroup, h100]

lemma process_buy_neg_eq (g : TradeGroup) (t : Trade) (bal : ℚ)
    (h100 : isEffectivelyZero (bal + t.amountOut) = false) :
    processTradeIntoGroup g t (some Direction.buy) bal =
      ({ g with
         buys := g.buys ++ [t],
         totalBuyAmount := g.totalBuyAmount + t.amountOut,
         totalBuyValue := g.totalBuyValue + t.valueUSD,
         endBalance := bal + t.amountOut,
         profitLoss := g.totalSellValue - (g.totalBuyValue + t.valueUSD) },
       bal + t.amountOut) := by
  simp [processTradeIntoGroup, h100]

lemma process_sell_pos_eq (g : TradeGroup) (t : Trade) (bal : ℚ)
    (h100 : isEffectivelyZero (bal - t.amountIn) = true) :
    processTradeIntoGroup g t (some Direction.sell) bal =
      ({ g with
         sells := g.sells ++ [t],
         totalSellAmount := g.totalSellAmount + t.amountIn,
         totalSellValue := g.totalSellValue + t.valueUSD,
         endBalance := bal - t.amountIn,
         profitLoss := g.totalSellValue + t.valueUSD - g.totalBuyValue,
         isComplete := true,
         endDate := some t.timestamp,
         duration := some ((t.timestamp - g.startDate) * MS_TO_SECONDS) },
       bal - t.amountIn) := by
  simp [processTradeIntoGroup, h100]

lemma process_sell_neg_eq (g : TradeGroup) (t : Trade) (bal : ℚ)
    (h100 : isEffectivelyZero (bal - t.amountIn) = false) :
    processTradeIntoGroup g t (some Direction.sell) bal =
      ({ g with
         sells := g.sells ++ [t],
         totalSellAmount := g.totalSellAmount + t.amountIn,
         totalSellValue := g.totalSellValue + t.valueUSD,
         endBalance := bal - t.amountIn,
         profitLoss := g.totalSellValue + t.valueUSD - g.totalBuyValue },
       bal - t.amountIn) := by
  simp [processTradeIntoGroup, h100]

/-- The per-group invariant maintained by the cycle builder. -/
structure GoodGroup (g : TradeGroup) : Prop where
  pl : g.profitLoss = g.totalSellValue - g.totalBuyValue
  buySum : g.totalBuyAmount = (g.buys.map Trade.amountOut).sum
  sellSum : g.totalSellAmount = (g.sells.map Trade.amountIn).sum
  buyValSum : g.totalBuyValue = (g.buys.map Trade.valueUSD).sum
  sellValSum : g.totalSellValue = (g.sells.map Trade.valueUSD).sum
  balance : g.endBalance = g.startBalance + g.totalBuyAmount - g.totalSellAmount
  completeOfDust : |g.endBalance| < DUST_THRESHOLD → g.isComplete = true
  durationOfComplete : g.isComplete = true →
    g.endDate.isSome = true ∧
    g.duration = g.endDate.map fun e => (e - g.startDate) * MS_TO_SECONDS

/-- What `processTradeIntoGroup` needs of its group argument, `bal` being the
running balance passed alongside. -/
structure PreGroup (g : TradeGroup) (bal : ℚ) : Prop where
  buySum : g.totalBuyAmount = (g.buys.map Trade.amountOut).sum
  sellSum : g.totalSellAmount = (g.sells.map Trade.amountIn).sum
  buyValSum : g.totalBuyValue = (g.buys.map Trade.valueUSD).sum
  sellValSum : g.totalSellValue = (g.sells.map Trade.valueUSD).sum
  balance : bal = g.startBalance + g.totalBuyAmount - g.totalSellAmount
  durationOfComplete : g.isComplete = true →
    g.endDate.isSome = true ∧
    g.duration = g.endDate.map fun e => (e - g.startDate) * MS_TO_SECONDS

lemma GoodGroup.toPre {g : TradeGroup} (h : GoodGroup g) :
    PreGroup g g.endBalance :=
  ⟨h.buySum, h.sellSum, h.buyValSum, h.sellValSum, h.balance,
    h.durationOfComplete⟩

lemma newGroup_pre (n : ℕ) (mint : String) (t : Trade) (d : Direction)
    (bal : ℚ) : PreGroup (newGroup n mint t d bal) bal := by
  refine ⟨?_, ?_, ?_, ?_, ?_, ?_⟩ <;> simp [newGroup]

lemma processTradeIntoGroup_spec (g : TradeGroup) (t : Trade) (d : Direction)
    (bal : ℚ) (h : PreGroup g bal) :
    GoodGroup (processTradeIntoGroup g t (some d) bal).1 ∧
    (processTradeIntoGroup g t (some d) bal).2 =
      (processTradeIntoGroup g t (some d) bal).1.endBalance ∧
    (processTradeIntoGroup g t (some d) bal).1.startBalance = g.startBalance := by
  obtain ⟨hbuy, hsell, hbuyval, hsellval, hbal, hdur⟩ := h
  cases d with
  | buy =>
    rcases h100 : isEffectivelyZero (bal + t.amountOut) with _ | _
    · rw [process_buy_neg_eq g t bal h100]
      refine ⟨⟨rfl, ?_, hsell, ?_, hsellval, ?_, ?_, ?_⟩, rfl, rfl⟩
      · show g.totalBuyAmount + t.amountOut =
          ((g.buys ++ [t]).map Trade.amountOut).sum
        rw [List.map_append, List.sum_append, hbuy]
        simp
      · show g.totalBuyValue + t.valueUSD =
          ((g.buys ++ [t]).map Trade.valueUSD).sum
        rw [List.map_append, List.sum_append, hbuyval]
        simp
      · show bal + t.amountOut =
          g.startBalance + (g.totalBuyAmount + t.amountOut) - g.totalSellAmount
        rw [hbal]; ring
      · intro habs
        exact absurd habs (isEffectivelyZero_eq_false.mp h100)
      · exact hdur
    · rw [process_buy_pos_eq g t bal h100]
      refine ⟨⟨rfl, ?_, hsell, ?_, hsellval, ?_, fun _ => rfl,
        fun _ => ⟨rfl, rfl⟩⟩, rfl, rfl⟩
      · show g.totalBuyAmount + t.amountOut =
          ((g.buys ++ [t]).map Trade.amountOut).sum
        rw [List.map_append, List.sum_append, hbuy]
        simp
      · show g.totalBuyValue + t.valueUSD =
          ((g.buys ++ [t]).map Trade.valueUSD).sum
        rw [List.map_append, List.sum_append, hbuyval]
        simp
      · show bal + t.amountOut =
          g.startBalance + (g.totalBuyAmount + t.amountOut) - g.totalSellAmount
        rw [hbal]; ring
  | sell =>
    rcases h100 : isEffectivelyZero (bal - t.amountIn) with _ | _
    · rw [process_sell_neg_eq g t bal h100]
      refine ⟨⟨?_, hbuy, ?_, hbuyval, ?_, ?_, ?_, ?_⟩, rfl, rfl⟩
      · show g.totalSellValue + t.valueUSD - g.totalBuyValue =
          g.totalSellValue + t.valueUSD - g.totalBuyValue
        rfl
      · show g.totalSellAmount + t.amountIn =
          ((g.sells ++ [t]).map Trade.amountIn).sum
        rw [List.map_append, List.sum_append, hsell]
        simp
      · show g.totalSellValue + t.valueUSD =
          ((g.sells ++ [t]).map Trade.valueUSD).sum
        rw [List.map_append, List.sum_append, hsellval]
        simp
      · show bal - t.amountIn =
          g.startBalance + g.totalBuyAmount - (g.totalSellAmount + t.amountIn)
        rw [hbal]; ring
      · intro habs
        exact absurd habs (isEffectivelyZero_eq_false.mp h100)
      · exact hdur
    · rw [process_sell_pos_eq g t bal h100]
      refine ⟨⟨rfl, hbuy, ?_, hbuyval, ?_, ?_, fun _ => rfl,
        fun _ => ⟨rfl, rfl⟩⟩, rfl, rfl⟩
      · show g.totalSellAmount + t.amountIn =
          ((g.sells ++ [t]).map Trade.amountIn).sum
        rw [List.map_append, List.sum_append, hsell]
        simp
      · show g.totalSellValue + t.valueUSD =
          ((g.sells ++ [t]).map Trade.valueUSD).sum
        rw [List.map_append, List.sum_append, hsellval]
        simp
      · show bal - t.amountIn =
          g.startBalance + g.totalBuyAmount - (g.totalSellAmount + t.amountIn)
        rw [hbal]; ring

end TradeCycles

namespace TradeCycles

lemma finalize_pos_eq (g : TradeGroup) (bal : ℚ) (t : Trade)
    (h100 : isEffectivelyZero bal = true) :
    finalizeGroup g bal t =
      { g with
        endBalance := bal,
        isComplete := true,
        endDate := some t.timestamp,
        duration := some ((t.timestamp - g.startDate) * MS_TO_SECONDS) } := by
  simp [finalizeGroup, h100]

lemma finalize_neg_eq (g : TradeGroup) (bal : ℚ) (t : Trade)
    (h100 : isEffectivelyZero bal = false) :
    finalizeGroup g bal t =
      { g with endBalance := bal, isComplete := false } := by
  simp [finalizeGroup, h100]

lemma finalizeGroup_spec (g : TradeGroup) (t : Trade) (h : GoodGroup g) :
    GoodGroup (finalizeGroup g g.endBalance t) ∧
    (finalizeGroup g g.endBalance t).startBalance = g.startBalance ∧
    (finalizeGroup g g.endBalance t).endBalance = g.endBalance := by
  rcases h100 : isEffectivelyZero g.endBalance with _ | _
  · rw [finalize_neg_eq g g.endBalance t h100]
    refine ⟨⟨h.pl, h.buySum, h.sellSum, h.buyValSum, h.sellValSum, h.balance,
      ?_, ?_⟩, rfl, rfl⟩
    · intro habs
      exact absurd habs (isEffectivelyZero_eq_false.mp h100)
    · intro hc
      exact absurd hc (by simp)
  · rw [finalize_pos_eq g g.endBalance t h100]
    exact ⟨⟨h.pl, h.buySum, h.sellSum, h.buyValSum, h.sellValSum, h.balance,
      fun _ => rfl, fun _ => ⟨rfl, rfl⟩⟩, rfl, rfl⟩

/-- The running-balance chain condition: the first group's `startBalance` is
`b`, and each group's `startBalance` is the previous group's `endBalance`. -/
def balChain : ℚ → List TradeGroup → Prop
  | _, [] => True
  | b, g :: rest => g.startBalance = b ∧ balChain g.endBalance rest

/-- The `endBalance` of the last group of the list, `b` if it is empty. -/
def lastEnd (b : ℚ) : List TradeGroup → ℚ
  | [] => b
  | g :: rest => lastEnd g.endBalance rest

lemma lastEnd_append (b : ℚ) (l : List TradeGroup) (x : TradeGroup) :
    lastEnd b (l ++ [x]) = x.endBalance := by
  induction l generalizing b with
  | nil => rfl
  | cons g rest ih => simpa [lastEnd] using ih g.endBalance

lemma balChain_append (b : ℚ) (l : List TradeGroup) (x : TradeGroup) :
    balChain b (l ++ [x]) ↔ balChain b l ∧ x.startBalance = lastEnd b l := by
  induction l generalizing b with
  | nil => simp [balChain, lastEnd]
  | cons g rest ih =>
    show (g.startBalance = b ∧ balChain g.endBalance (rest ++ [x])) ↔
      (g.startBalance = b ∧ balChain g.endBalance rest) ∧
        x.startBalance = lastEnd g.endBalance rest
    constructor
    · rintro ⟨h1, h2⟩
      rw [ih] at h2
      exact ⟨⟨h1, h2.1⟩, h2.2⟩
    · rintro ⟨⟨h1, h2⟩, h3⟩
      exact ⟨h1, (ih g.endBalance).mpr ⟨h2, h3⟩⟩

/-- The invariant of the builder loop state. -/
structure Inv (st : BuilderState) : Prop where
  good : ∀ g ∈ st.tradeGroups ++ st.currentGroup.toList, GoodGroup g
  chain : balChain 0 (st.tradeGroups ++ st.currentGroup.toList)
  link : ∀ g, st.currentGroup = some g → st.runningBalance = g.endBalance
  empt : st.currentGroup = none → st.tradeGroups = [] ∧ st.runningBalance = 0

lemma stepTrade_none_eq (mint : String) (st : BuilderState) (t : Trade)
    (hdir : determineTradeDirection t mint = none) :
    stepTrade mint st t = st := by
  simp [stepTrade, hdir]

lemma stepTrade_fromNone_eq (mint : String) (st : BuilderState) (t : Trade)
    (dir : Direction) (hdir : determineTradeDirection t mint = some dir)
    (hcur : st.currentGroup = none) :
    stepTrade mint st t =
      { tradeGroups := st.tradeGroups,
        currentGroup :=
          some (processTradeIntoGroup
            (newGroup st.tradeCounter mint t dir st.runningBalance) t
            (some dir) st.runningBalance).1,
        runningBalance :=
          (processTradeIntoGroup
            (newGroup st.tradeCounter mint t dir st.runningBalance) t
            (some dir) st.runningBalance).2,
        tradeCounter := st.tradeCounter + 1 } := by
  simp [stepTrade, hdir, hcur, shouldStartNewGroup]

lemma stepTrade_newFromSome_eq (mint : String) (st : BuilderState) (t : Trade)
    (dir : Direction) (g : TradeGroup)
    (hdir : determineTradeDirection t mint = some dir)
    (hcur : st.currentGroup = some g)
    (hnew : shouldStartNewGroup st.currentGroup st.runningBalance
      (some dir) = true) :
    stepTrade mint st t =
      { tradeGroups :=
          st.tradeGroups ++
            [if g.isComplete then g else finalizeGroup g st.runningBalance t],
        currentGroup :=
          some (processTradeIntoGroup
            (newGroup st.tradeCounter mint t dir st.runningBalance) t
            (some dir) st.runningBalance).1,
        runningBalance :=
          (processTradeIntoGroup
            (newGroup st.tradeCounter mint t dir st.runningBalance) t
            (some dir) st.runningBalance).2,
        tradeCounter := st.tradeCounter + 1 } := by
  rw [hcur] at hnew
  simp [stepTrade, hdir, hcur, hnew]

lemma stepTrade_cont_eq (mint : String) (st : BuilderState) (t : Trade)
    (dir : Direction) (g : TradeGroup)
    (hdir : determineTradeDirection t mint = some dir)
    (hcur : st.currentGroup = some g)
    (hnew : shouldStartNewGroup st.currentGroup st.runningBalance
      (some dir) = false) :
    stepTrade mint st t =
      { st with
        currentGroup :=
          some (processTradeIntoGroup g t (some dir) st.runningBalance).1,
        runningBalance :=
          (processTradeIntoGroup g t (some dir) st.runningBalance).2 } := by
  rw [hcur] at hnew
  simp [stepTrade, hdir, hcur, hnew]

end TradeCycles

namespace TradeCycles

lemma stepTrade_inv (mint : String) (st : BuilderState) (t : Trade)
    (h : Inv st) : Inv (stepTrade mint st t) := by
  rcases hdir : determineTradeDirection t mint with _ | dir
  · rw [stepTrade_none_eq mint st t hdir]
    exact h
  · rcases hcur : st.currentGroup with _ | g
    · -- no current group: open a fresh one and process the trade into it
      rw [stepTrade_fromNone_eq mint st t dir hdir hcur]
      obtain ⟨hTG, hRB⟩ := h.empt hcur
      obtain ⟨hq, hq2, hq3⟩ :=
        processTradeIntoGroup_spec
          (newGroup st.tradeCounter mint t dir st.runningBalance) t dir
          st.runningBalance (newGroup_pre _ _ _ _ _)
      refine ⟨?_, ?_, ?_, ?_⟩
      · intro g' hg'
        simp only [hTG, Option.toList_some, List.nil_append,
          List.mem_singleton] at hg'
        subst hg'
        exact hq
      · simp only [hTG, Option.toList_some, List.nil_append]
        refine ⟨?_, trivial⟩
        rw [hq3, hRB]
        rfl
      · intro g' hg'
        simp only [Option.some.injEq] at hg'
        subst hg'
        exact hq2
      · intro habs
        exact absurd habs (by simp)
    · by_cases hnew : shouldStartNewGroup st.currentGroup st.runningBalance
        (some dir) = true
      · -- close the old group (finalizing it if incomplete) and open a new one
        rw [stepTrade_newFromSome_eq mint st t dir g hdir hcur hnew]
        have hlink := h.link g hcur
        have hgood : GoodGroup g := h.good g (by simp [hcur])
        have hchain : balChain 0 (st.tradeGroups ++ [g]) := by
          have := h.chain
          rwa [hcur, Option.toList_some] at this
        obtain ⟨hq, hq2, hq3⟩ :=
          processTradeIntoGroup_spec
            (newGroup st.tradeCounter mint t dir st.runningBalance) t dir
            st.runningBalance (newGroup_pre _ _ _ _ _)
        have hfin :
            GoodGroup (if g.isComplete then g
              else finalizeGroup g st.runningBalance t) ∧
            (if g.isComplete then g
              else finalizeGroup g st.runningBalance t).startBalance =
              g.startBalance ∧
            (if g.isComplete then g
              else finalizeGroup g st.runningBalance t).endBalance =
              g.endBalance := by
          rcases hC : g.isComplete with _ | _
          · rw [if_neg (by simp)]
            rw [hlink]
            exact finalizeGroup_spec g t hgood
          · rw [if_pos rfl]
            exact ⟨hgood, rfl, rfl⟩
        refine ⟨?_, ?_, ?_, ?_⟩
        · intro g' hg'
          simp only [Option.toList_some, List.mem_append,
            List.mem_singleton] at hg'
          rcases hg' with (hg' | hg') | hg'
          · exact h.good g' (by simp [hg'])
          · rw [hg']
            exact hfin.1
          · rw [hg']
            exact hq
        · simp only [Option.toList_some]
          rw [balChain_append]
          constructor
          · rw [balChain_append]
            refine ⟨(balChain_append 0 st.tradeGroups g).mp hchain |>.1, ?_⟩
            rw [hfin.2.1]
            exact (balChain_append 0 st.tradeGroups g).mp hchain |>.2
          · rw [lastEnd_append, hfin.2.2, hq3, ← hlink]
            rfl
        · intro g' hg'
          simp only [Option.some.injEq] at hg'
          subst hg'
          exact hq2
        · intro habs
          exact absurd habs (by simp)
      · -- continue the current group
        rw [Bool.not_eq_true] at hnew
        rw [stepTrade_cont_eq mint st t dir g hdir hcur hnew]
        have hlink := h.link g hcur
        have hgood : GoodGroup g := h.good g (by simp [hcur])
        have hpre : PreGroup g st.runningBalance := by
          rw [hlink]
          exact hgood.toPre
        obtain ⟨hp, hp2, hp3⟩ :=
          processTradeIntoGroup_spec g t dir st.runningBalance hpre
        have hchain : balChain 0 (st.tradeGroups ++ [g]) := by
          have := h.chain
          rwa [hcur, Option.toList_some] at this
        refine ⟨?_, ?_, ?_, ?_⟩
        · intro g' hg'
          simp only [Option.toList_some, List.mem_append,
            List.mem_singleton] at hg'
          rcases hg' with hg' | hg'
          · exact h.good g' (by simp [hg'])
          · rw [hg']
            exact hp
        · simp only [Option.toList_some]
          rw [balChain_append]
          refine ⟨(balChain_append 0 st.tradeGroups g).mp hchain |>.1, ?_⟩
          rw [hp3]
          exact (balChain_append 0 st.tradeGroups g).mp hchain |>.2
        · intro g' hg'
          simp only [Option.some.injEq] at hg'
          subst hg'
          exact hp2
        · intro habs
          exact absurd habs (by simp)

lemma initialState_inv :
    Inv { tradeGroups := [], currentGroup := none,
          runningBalance := 0, tradeCounter := 1 } := by
  refine ⟨?_, ?_, ?_, ?_⟩
  · intro g hg
    simp [Option.toList] at hg
  · exact trivial
  · intro g hg
    exact absurd hg (by simp)
  · intro _
    exact ⟨rfl, rfl⟩

lemma foldl_stepTrade_inv (mint : String) (ts : List Trade)
    (st : BuilderState) (h : Inv st) :
    Inv (ts.foldl (stepTrade mint) st) := by
  induction ts generalizing st with
  | nil => exact h
  | cons t ts ih => exact ih _ (stepTrade_inv mint st t h)

lemma createTradeGroupsForToken_spec (mint : String) (ts : List Trade) :
    (∀ g ∈ createTradeGroupsForToken mint ts, GoodGroup g) ∧
    balChain 0 (createTradeGroupsForToken mint ts) := by
  unfold createTradeGroupsForToken
  split
  · exact ⟨fun g hg => absurd hg (by simp), trivial⟩
  · have hinv :=
      foldl_stepTrade_inv mint
        (List.insertionSort (fun a b => a.timestamp ≤ b.timestamp) ts)
        _ initialState_inv
    exact ⟨hinv.good, hinv.chain⟩

end TradeCycles

namespace TradeCycles

lemma foldl_preserve {α β : Type} (f : β → α → β) (P : β → Prop)
    (hf : ∀ b a, P b → P (f b a)) :
    ∀ (l : List α) (b : β), P b → P (l.foldl f b) := by
  intro l
  induction l with
  | nil => exact fun b hb => hb
  | cons a l ih => exact fun b hb => ih _ (hf b a hb)

lemma calculateTradeCycles_good (trades : List Trade) :
    ∀ c ∈ calculateTradeCycles trades, ∀ g ∈ c.tradeGroups, GoodGroup g := by
  unfold calculateTradeCycles
  split
  · simp
  · apply foldl_preserve _
      (fun acc : List TradeCycle => ∀ c ∈ acc, ∀ g ∈ c.tradeGroups, GoodGroup g)
      ?_ (groupTradesByToken trades) [] (by simp)
    rintro acc ⟨mint, bucket⟩ hacc
    cases bucket with
    | nil => exact hacc
    | cons ft rest =>
      dsimp only
      split
      · exact hacc
      · split
        · exact hacc
        · rename_i g0 rest2 heq
          split
          · intro c hc
            rcases List.mem_append.mp hc with hc | hc
            · exact hacc c hc
            · rw [List.mem_singleton] at hc
              subst hc
              intro g hg
              dsimp only at hg
              rw [← heq] at hg
              exact (createTradeGroupsForToken_spec mint (ft :: rest)).1 g hg
          · exact hacc

lemma flattenTradeCycles_sorted (cs : List TradeCycle) :
    List.Pairwise (fun a b : FlattenedTrade => b.startDate ≤ a.startDate)
      (flattenTradeCycles cs) := by
  unfold flattenTradeCycles
  split
  · simp
  · haveI : IsTotal FlattenedTrade (fun a b => b.startDate ≤ a.startDate) :=
      ⟨fun a b => le_total _ _⟩
    haveI : IsTrans FlattenedTrade (fun a b => b.startDate ≤ a.startDate) :=
      ⟨fun a b c h1 h2 => le_trans h2 h1⟩
    exact List.sorted_insertionSort _ _

end TradeCycles

namespace TradeCycles

/-- Test fixture: a USD-stablecoin price leg. -/
def usdcTok : TokenInfo := ⟨"um", "USDC", "USD Coin", 6, none, none⟩

/-- Test fixture: an ordinary tracked token. -/
def fooTok : TokenInfo := ⟨"fm", "FOO", "Foo", 9, none, none⟩

/-- Test fixture: a liquid-staked token listed in `EXCLUDED_TOKENS`. -/
def msolTok : TokenInfo := ⟨"mm", "mSOL", "Marinade SOL", 9, none, none⟩

/-- Test fixture: a swap acquiring `amt` of `tok` against `usd` USDC. -/
def exBuy (tok : TokenInfo) (amt usd ts : ℚ) : Trade :=
  ⟨"sig", ts, TradeKind.swap, usdcTok, tok, usd, amt, 1, usd, "dex", "mk"⟩

/-- Test fixture: a swap selling `amt` of `tok` for `usd` USDC. -/
def exSell (tok : TokenInfo) (amt usd ts : ℚ) : Trade :=
  ⟨"sig", ts, TradeKind.swap, tok, usdcTok, amt, usd, 1, usd, "dex", "mk"⟩

/-- Test fixture: buy 1000 FOO for 100 USD, then sell them for 120 USD. -/
def exATrades : List Trade := [exBuy fooTok 1000 100 10, exSell fooTok 1000 120 15]

/-- The single cycle the engine produces for `exATrades`. -/
def exAGroup : TradeGroup :=
  { tradeNumber := 1, token := "FOO", tokenMint := "fm",
    buys := [exBuy fooTok 1000 100 10], sells := [exSell fooTok 1000 120 15],
    totalBuyAmount := 1000, totalSellAmount := 1000,
    totalBuyValue := 100, totalSellValue := 120,
    startBalance := 0, endBalance := 0, profitLoss := 20,
    isComplete := true, startDate := 10, endDate := some 15,
    duration := some 5000 }

def exACycle : TradeCycle := ⟨"FOO", "fm", [exAGroup]⟩

lemma calc_exA : calculateTradeCycles exATrades = [exACycle] := by
  norm_num +decide [calculateTradeCycles, exATrades, exBuy, exSell, usdcTok,
    fooTok, groupTradesByToken, addTradeToTokenMap, extractTokenSymbol,
    isExcludedToken, jsToUpperCase, EXCLUDED_TOKENS,
    createTradeGroupsForToken, List.insertionSort, List.orderedInsert,
    stepTrade, determineTradeDirection, shouldStartNewGroup,
    processTradeIntoGroup, isEffectivelyZero, DUST_THRESHOLD, MS_TO_SECONDS,
    newGroup, finalizeGroup, exACycle, exAGroup]

/-- Test fixture: buy 150 FOO, sell 100 (completes at dust 50), then sell
200 more, driving the balance to -150 while the cycle stays complete. -/
def cxTrades : List Trade :=
  [exBuy fooTok 150 15 1, exSell fooTok 100 10 2, exSell fooTok 200 20 3]

/-- The single cycle the engine produces for `cxTrades`. -/
def cxGroup : TradeGroup :=
  { tradeNumber := 1, token := "FOO", tokenMint := "fm",
    buys := [exBuy fooTok 150 15 1],
    sells := [exSell fooTok 100 10 2, exSell fooTok 200 20 3],
    totalBuyAmount := 150, totalSellAmount := 300,
    totalBuyValue := 15, totalSellValue := 30,
    startBalance := 0, endBalance := -150, profitLoss := 15,
    isComplete := true, startDate := 1, endDate := some 2,
    duration := some 1000 }

def cxCycle : TradeCycle := ⟨"FOO", "fm", [cxGroup]⟩

lemma calc_cx : calculateTradeCycles cxTrades = [cxCycle] := by
  norm_num +decide [calculateTradeCycles, cxTrades, exBuy, exSell, usdcTok,
    fooTok, groupTradesByToken, addTradeToTokenMap, extractTokenSymbol,
    isExcludedToken, jsToUpperCase, EXCLUDED_TOKENS,
    createTradeGroupsForToken, List.insertionSort, List.orderedInsert,
    stepTrade, determineTradeDirection, shouldStartNewGroup,
    processTradeIntoGroup, isEffectivelyZero, DUST_THRESHOLD, MS_TO_SECONDS,
    newGroup, finalizeGroup, cxCycle, cxGroup]

/-- Test fixture: a single buy of the excluded-listed token mSOL. -/
def msTrades : List Trade := [exBuy msolTok 1000 100 10]

/-- The cycle the engine (wrongly, per its own `EXCLUDED_TOKENS`) produces
for `msTrades`. -/
def msGroup : TradeGroup :=
  { tradeNumber := 1, token := "mSOL", tokenMint := "mm",
    buys := [exBuy msolTok 1000 100 10], sells := [],
    totalBuyAmount := 1000, totalSellAmount := 0,
    totalBuyValue := 100, totalSellValue := 0,
    startBalance := 0, endBalance := 1000, profitLoss := -100,
    isComplete := false, startDate := 10, endDate := none,
    duration := none }

def msCycle : TradeCycle := ⟨"mSOL", "mm", [msGroup]⟩

lemma calc_ms : calculateTradeCycles msTrades = [msCycle] := by
  norm_num +decide [calculateTradeCycles, msTrades, exBuy, usdcTok,
    msolTok, groupTradesByToken, addTradeToTokenMap, extractTokenSymbol,
    isExcludedToken, jsToUpperCase, EXCLUDED_TOKENS,
    createTradeGroupsForToken, List.insertionSort, List.orderedInsert,
    stepTrade, determineTradeDirection, shouldStartNewGroup,
    processTradeIntoGroup, isEffectivelyZero, DUST_THRESHOLD, MS_TO_SECONDS,
    newGroup, finalizeGroup, msCycle, msGroup]

/-- Test fixture: scenario E — a completed cycle followed by a later buy of
2000 FOO opening a second, still-open cycle. -/
def exETrades : List Trade :=
  [exBuy fooTok 1000 100 10, exSell fooTok 1000 120 15, exBuy fooTok 2000 50 20]

/-- The second (open) cycle the engine produces for `exETrades`. -/
def exEGroup2 : TradeGroup :=
  { tradeNumber := 2, token := "FOO", tokenMint := "fm",
    buys := [exBuy fooTok 2000 50 20], sells := [],
    totalBuyAmount := 2000, totalSellAmount := 0,
    totalBuyValue := 50, totalSellValue := 0,
    startBalance := 0, endBalance := 2000, profitLoss := -50,
    isComplete := false, startDate := 20, endDate := none,
    duration := none }

lemma create_exE :
    createTradeGroupsForToken "fm" exETrades = [exAGroup, exEGroup2] := by
  norm_num +decide [createTradeGroupsForToken, exETrades, exBuy, exSell,
    usdcTok, fooTok, List.insertionSort, List.orderedInsert, stepTrade,
    determineTradeDirection, shouldStartNewGroup, processTradeIntoGroup,
    isEffectivelyZero, DUST_THRESHOLD, MS_TO_SECONDS, newGroup,
    finalizeGroup, exAGroup, exEGroup2]

/-- Test fixture: the in-progress cycle holding 1000 FOO bought at
timestamp 10, before any sell. -/
def exC6Group : TradeGroup :=
  { tradeNumber := 1, token := "FOO", tokenMint := "fm",
    buys := [exBuy fooTok 1000 100 10], sells := [],
    totalBuyAmount := 1000, totalSellAmount := 0,
    totalBuyValue := 100, totalSellValue := 0,
    startBalance := 0, endBalance := 1000, profitLoss := -100,
    isComplete := false, startDate := 10, endDate := none,
    duration := none }

end TradeCycles

namespace TradeCycles

lemma balChain_chain' (b : ℚ) (l : List TradeGroup) (h : balChain b l) :
    List.Chain' (fun a c => c.startBalance = a.endBalance) l ∧
    ∀ g, l.head? = some g → g.startBalance = b := by
  induction l generalizing b with
  | nil => exact ⟨List.chain'_nil, by simp⟩
  | cons g rest ih =>
    obtain ⟨h1, h2⟩ := h
    obtain ⟨ihc, ihh⟩ := ih g.endBalance h2
    refine ⟨List.chain'_cons'.mpr ⟨fun y hy => ihh y hy, ihc⟩, ?_⟩
    intro g' hg'
    simp only [List.head?_cons, Option.some.injEq] at hg'
    subst hg'
    exact h1

/-- C1: the claimed equivalence `isComplete ⇔ |endBalance| < DUST_THRESHOLD`
fails on the code: on `cxTrades` (buy 150, sell 100, sell 200) the engine
emits a cycle with `isComplete = true` yet `endBalance = -150`, because
completion is never revoked when a later sell drives the balance past the
dust threshold again. -/
theorem claim_C1_counterexample :
    ¬ (∀ c ∈ calculateTradeCycles cxTrades, ∀ g ∈ c.tradeGroups,
        (g.isComplete = true ↔ |g.endBalance| < DUST_THRESHOLD)) := by
  intro hall
  have h := hall cxCycle (by rw [calc_cx]; exact List.mem_singleton.mpr rfl)
    cxGroup (List.mem_singleton.mpr rfl)
  have h2 := h.mp rfl
  norm_num [cxGroup, DUST_THRESHOLD] at h2

/-- C1 (amended): only the forward direction holds — every cycle emitted by
`calculateTradeCycles` whose `endBalance` is below the dust threshold in
absolute value is marked complete.  The converse direction is false (see the
counterexample): `isComplete` is sticky once set. -/
theorem claim_C1_amended (trades : List Trade) (c : TradeCycle)
    (hc : c ∈ calculateTradeCycles trades) (g : TradeGroup)
    (hg : g ∈ c.tradeGroups) (hdust : |g.endBalance| < DUST_THRESHOLD) :
    g.isComplete = true :=
  (calculateTradeCycles_good trades c hc g hg).completeOfDust hdust

/-- Witness for C1 (amended) at the concrete input `exATrades`. -/
theorem claim_C1_amended_witness : exAGroup.isComplete = true :=
  claim_C1_amended exATrades exACycle
    (by rw [calc_exA]; exact List.mem_singleton.mpr rfl)
    exAGroup (List.mem_singleton.mpr rfl)
    (by norm_num [exAGroup, DUST_THRESHOLD])

/-- C2: the code contradicts its own `EXCLUDED_TOKENS` list.  `mSOL` is
listed, but `isExcludedToken` compares `symbol.toUpperCase()` (`"MSOL"`)
against the mixed-case entries by exact equality, so no case variant of
`mSOL` is ever excluded. -/
theorem claim_C2_code_bug :
    "mSOL" ∈ EXCLUDED_TOKENS ∧
    isExcludedToken "mSOL" = false ∧
    isExcludedToken "MSOL" = false ∧
    isExcludedToken "msol" = false := by
  decide

/-- C3: on the concrete input `msTrades` (a single buy of mSOL) the engine
emits a cycle whose token symbol `"mSOL"` is one of the excluded symbols,
contradicting the claim that no emitted cycle carries an excluded symbol. -/
theorem claim_C3_code_bug :
    (calculateTradeCycles msTrades).map TradeCycle.token = ["mSOL"] ∧
    "mSOL" ∈ EXCLUDED_TOKENS := by
  constructor
  · rw [calc_ms]
    rfl
  · decide

/-- C4: every cycle emitted by `calculateTradeCycles` has
`profitLoss = totalSellValue - totalBuyValue`, where `totalBuyValue` is the
sum of `valueUSD` over the cycle's recorded buy trades and `totalSellValue`
is the sum of `valueUSD` over its recorded sell trades. -/
theorem claim_C4 (trades : List Trade) (c : TradeCycle)
    (hc : c ∈ calculateTradeCycles trades) (g : TradeGroup)
    (hg : g ∈ c.tradeGroups) :
    g.profitLoss = g.totalSellValue - g.totalBuyValue ∧
    g.totalBuyValue = (g.buys.map Trade.valueUSD).sum ∧
    g.totalSellValue = (g.sells.map Trade.valueUSD).sum :=
  ⟨(calculateTradeCycles_good trades c hc g hg).pl,
   (calculateTradeCycles_good trades c hc g hg).buyValSum,
   (calculateTradeCycles_good trades c hc g hg).sellValSum⟩

/-- Witness for C4 at the concrete input `exATrades`. -/
theorem claim_C4_witness :
    exAGroup.profitLoss = exAGroup.totalSellValue - exAGroup.totalBuyValue ∧
    exAGroup.totalBuyValue = (exAGroup.buys.map Trade.valueUSD).sum ∧
    exAGroup.totalSellValue = (exAGroup.sells.map Trade.valueUSD).sum :=
  claim_C4 exATrades exACycle
    (by rw [calc_exA]; exact List.mem_singleton.mpr rfl)
    exAGroup (List.mem_singleton.mpr rfl)

/-- C5: every cycle emitted by `calculateTradeCycles` satisfies
`endBalance = startBalance + Σ amountOut over buys − Σ amountIn over
sells`. -/
theorem claim_C5 (trades : List Trade) (c : TradeCycle)
    (hc : c ∈ calculateTradeCycles trades) (g : TradeGroup)
    (hg : g ∈ c.tradeGroups) :
    g.endBalance = g.startBalance + (g.buys.map Trade.amountOut).sum -
      (g.sells.map Trade.amountIn).sum := by
  have h := calculateTradeCycles_good trades c hc g hg
  rw [h.balance, h.buySum, h.sellSum]

/-- Witness for C5 at the concrete input `exATrades`. -/
theorem claim_C5_witness :
    exAGroup.endBalance = exAGroup.startBalance +
      (exAGroup.buys.map Trade.amountOut).sum -
      (exAGroup.sells.map Trade.amountIn).sum :=
  claim_C5 exATrades exACycle
    (by rw [calc_exA]; exact List.mem_singleton.mpr rfl)
    exAGroup (List.mem_singleton.mpr rfl)

/-- C6: the claim that `duration = endDate − startDate` (in the timestamp
unit, seconds) fails on the code: on `exATrades` the emitted complete cycle
has `endDate = 15`, `startDate = 10` but `duration = 5000`, because the
code multiplies the delta by `MS_TO_SECONDS = 1000`. -/
theorem claim_C6_counterexample :
    ¬ (∀ c ∈ calculateTradeCycles exATrades, ∀ g ∈ c.tradeGroups,
        g.isComplete = true →
          g.duration = g.endDate.map fun e => e - g.startDate) := by
  intro hall
  have h := hall exACycle (by rw [calc_exA]; exact List.mem_singleton.mpr rfl)
    exAGroup (List.mem_singleton.mpr rfl) rfl
  norm_num [exAGroup] at h

/-- C6 (amended): whenever processing a trade brings the cycle's running
balance below the dust threshold in absolute value, the cycle is marked
complete, its `endDate` is set to that trade's timestamp, and its `duration`
equals `(endDate − startDate) * 1000` (`MS_TO_SECONDS`) — a milliseconds
value derived from the second-denominated timestamps, not the bare delta
`endDate − startDate`. -/
theorem claim_C6_amended (g : TradeGroup) (t : Trade) (d : Direction)
    (bal : ℚ)
    (hdust : |(processTradeIntoGroup g t (some d) bal).2| < DUST_THRESHOLD) :
    (processTradeIntoGroup g t (some d) bal).1.isComplete = true ∧
    (processTradeIntoGroup g t (some d) bal).1.endDate = some t.timestamp ∧
    (processTradeIntoGroup g t (some d) bal).1.duration =
      some ((t.timestamp -
        (processTradeIntoGroup g t (some d) bal).1.startDate) *
        MS_TO_SECONDS) := by
  cases d with
  | buy =>
    rcases h100 : isEffectivelyZero (bal + t.amountOut) with _ | _
    · rw [process_buy_neg_eq g t bal h100] at hdust
      exact absurd hdust (isEffectivelyZero_eq_false.mp h100)
    · rw [process_buy_pos_eq g t bal h100]
      exact ⟨rfl, rfl, rfl⟩
  | sell =>
    rcases h100 : isEffectivelyZero (bal - t.amountIn) with _ | _
    · rw [process_sell_neg_eq g t bal h100] at hdust
      exact absurd hdust (isEffectivelyZero_eq_false.mp h100)
    · rw [process_sell_pos_eq g t bal h100]
      exact ⟨rfl, rfl, rfl⟩

/-- Witness for C6 (amended): selling the whole 1000-FOO position of
`exC6Group` at timestamp 15 completes the cycle opened at timestamp 10. -/
theorem claim_C6_amended_witness :
    (processTradeIntoGroup exC6Group (exSell fooTok 1000 120 15)
      (some Direction.sell) 1000).1.isComplete = true ∧
    (processTradeIntoGroup exC6Group (exSell fooTok 1000 120 15)
      (some Direction.sell) 1000).1.endDate =
      some (exSell fooTok 1000 120 15).timestamp ∧
    (processTradeIntoGroup exC6Group (exSell fooTok 1000 120 15)
      (some Direction.sell) 1000).1.duration =
      some (((exSell fooTok 1000 120 15).timestamp -
        (processTradeIntoGroup exC6Group (exSell fooTok 1000 120 15)
          (some Direction.sell) 1000).1.startDate) * MS_TO_SECONDS) :=
  claim_C6_amended exC6Group (exSell fooTok 1000 120 15) Direction.sell 1000
    (by norm_num +decide [processTradeIntoGroup, exSell, fooTok, usdcTok,
      isEffectivelyZero, DUST_THRESHOLD, exC6Group])

/-- C7: the direction classifier is exactly the claimed pure case analysis on
the two address comparisons: both sides ⇒ null, out-side only ⇒ buy, in-side
only ⇒ sell, neither ⇒ null. -/
theorem claim_C7 (t : Trade) (m : String) :
    determineTradeDirection t m =
      if t.tokenOut.address = m ∧ t.tokenIn.address = m then none
      else if t.tokenOut.address = m then some Direction.buy
      else if t.tokenIn.address = m then some Direction.sell
      else none := by
  by_cases h1 : t.tokenOut.address = m <;>
    by_cases h2 : t.tokenIn.address = m <;>
    simp [determineTradeDirection, h1, h2]

/-- C8: the flattened output is sorted non-increasing by `startDate`: every
adjacent pair satisfies `later.startDate ≤ earlier.startDate`. -/
theorem claim_C8 (tradeCycles : List TradeCycle) :
    List.Chain' (fun a b => b.startDate ≤ a.startDate)
      (flattenTradeCycles tradeCycles) :=
  (flattenTradeCycles_sorted tradeCycles).chain'

/-- C9: empty input is not an error: both entry points return the empty
list on the empty input. -/
theorem claim_C9 :
    calculateTradeCycles [] = [] ∧ flattenTradeCycles [] = [] :=
  ⟨rfl, rfl⟩

/-- C10: within one asset's cycle list the running balance is carried over:
each cycle's `startBalance` is the previous cycle's `endBalance`, and the
first cycle's `startBalance` is 0. -/
theorem claim_C10 (tokenMint : String) (tokenTrades : List Trade) :
    List.Chain' (fun a b => b.startBalance = a.endBalance)
      (createTradeGroupsForToken tokenMint tokenTrades) ∧
    ∀ g, (createTradeGroupsForToken tokenMint tokenTrades).head? = some g →
      g.startBalance = 0 :=
  balChain_chain' 0 _ (createTradeGroupsForToken_spec tokenMint tokenTrades).2

/-- Witness for C10 at the concrete input `exETrades` (two cycles). -/
theorem claim_C10_witness : exAGroup.startBalance = 0 :=
  (claim_C10 "fm" exETrades).2 exAGroup (by rw [create_exE]; rfl)

end TradeCycles
